import Mathlib

/-!
Verification development for the Pdf-Query-App backend.

The definitions below are a shallow embedding of the Python source files
`backend/pdf_processor.py` and `backend/query_engine.py`:

* strings are Lean `String`s (lists of characters), Python slices and
  `str.lower` / `str.strip` are modelled character-wise;
* floating point scores are idealised as exact rationals `ℚ`;
* the external inference services (sentence-transformer `encode`, the
  summarization pipeline, the question-answering pipeline) and the library
  function `cosine_similarity` are opaque collaborators, passed in as a
  `Services` record; a fallible call returns `Except String α`, where
  `.error e` models a raised exception with message `e`;
* the mutable fields `document_chunks` / `chunk_embeddings` of `QueryEngine`
  become an explicit `EngineState` threaded through the operations;
* `PDFProcessor._create_chunks` contains an unbounded `while` loop, so it is
  embedded with explicit fuel: `none` means the fuel was exhausted before the
  loop finished.

Service invocations are additionally recorded in a call log (`SvcCall`), so
that claims such as "the summarizer is invoked exactly once" or "some service
call failed" can be stated.
-/

/-! ### Python string primitives -/

/-- Python `str.lower()` (ASCII case mapping, which covers the source's use). -/
def pyLower (s : String) : String := String.mk (s.data.map Char.toLower)

/-- The whitespace predicate used by Python `str.strip()` (common subset). -/
def pySpace (c : Char) : Bool := c.isWhitespace

/-- Drop leading whitespace from a character list. -/
def dropLeadSpace (l : List Char) : List Char := l.dropWhile pySpace

/-- Python `str.strip()` on a character list: drop trailing whitespace
(via reversal) and then leading whitespace. -/
def pyStripL (l : List Char) : List Char :=
  dropLeadSpace (dropLeadSpace l.reverse).reverse

/-- Python `str.strip()`. -/
def pyStrip (s : String) : String := String.mk (pyStripL s.data)

/-- Python slice `s[a:b]` (on a character list; indices clamp like in Python). -/
def pySlice (s : List Char) (a b : Nat) : List Char := (s.take b).drop a

/-- Python `s[:n]` on a `String`. -/
def strTake (s : String) (n : Nat) : String := String.mk (s.data.take n)

/-- Python substring containment `needle in hay` (character lists). -/
def listLeadsWith : List Char → List Char → Bool
  | [], _ => true
  | _ :: _, [] => false
  | a :: as, b :: bs => a == b && listLeadsWith as bs

/-- Python `needle in hay` for strings: `needle` occurs contiguously in `hay`. -/
def subOccurs (needle : List Char) : List Char → Bool
  | [] => needle.isEmpty
  | b :: t => listLeadsWith needle (b :: t) || subOccurs needle t

/-- Python `needle in hay` on `String`s. -/
def pyContains (hay needle : String) : Bool := subOccurs needle.data hay.data

/-- Python `re.findall(r'\b\w+\b', s)`: the maximal runs of word characters
(`[A-Za-z0-9_]`, here `Char.isAlphanum` or underscore) of `s`, in order.
`cur` accumulates the current run in reverse. -/
def isWordChar (c : Char) : Bool := c.isAlphanum || c == '_'

def wordRuns : List Char → List Char → List String
  | [], cur => if cur.isEmpty then [] else [String.mk cur.reverse]
  | c :: rest, cur =>
    if isWordChar c then
      wordRuns rest (c :: cur)
    else
      if cur.isEmpty then wordRuns rest [] else String.mk cur.reverse :: wordRuns rest []

/-- All word tokens of a string (Python `re.findall(r'\b\w+\b', s)`). -/
def wordTokens (s : String) : List String := wordRuns s.data []

/-- Python `str.rfind(c, start, stop)` for a single-character needle:
the highest index `i` with `start ≤ i < stop` and `s[i] = c`, else `-1`.
(`List.range` is ascending, so the last surviving index is the maximum.) -/
def rfindChar (s : List Char) (c : Char) (start stop : Nat) : Int :=
  match ((List.range (min stop s.length)).filter
      (fun i => decide (start ≤ i) && (s.getD i (Char.ofNat 0) == c))).getLast? with
  | some i => (i : Int)
  | none => -1

/-! ### `PDFProcessor._create_chunks` (pdf_processor.py, lines 142-192)

The `while start < len(text)` loop is embedded with fuel; one unit of fuel is
one loop iteration.  `none` means the fuel ran out before the loop exited. -/

/-- The per-iteration boundary computation of `_create_chunks` (lines 159-175):
`end = start + self.chunk_size`, then, when that boundary is strictly inside
the text, the backward search for the rightmost sentence ending within the
last 200 characters of the window, keeping the delimiter in the chunk. -/
def chunkEnd (cs : Nat) (text : List Char) (start : Nat) : Nat :=
  -- end = start + self.chunk_size
  let end0 := start + cs
  -- if end < len(text): look for sentence endings in the last 200 chars
  if end0 < text.length then
    -- search_start = max(end - 200, start); Nat subtraction truncates at 0,
    -- which `max` with `start` makes agree with Python's signed arithmetic
    let ss := max (end0 - 200) start
    let endings := [rfindChar text '.' ss end0, rfindChar text '!' ss end0,
                    rfindChar text '?' ss end0, rfindChar text '\n' ss end0]
    -- best_end = max([pos for pos in sentence_endings if pos > search_start], default=end)
    let hits := endings.filter (fun p => decide ((ss : Int) < p))
    let bestEnd : Int :=
      match hits with
      | [] => (end0 : Int)
      | h :: t => t.foldl max h
    -- if best_end > search_start: end = best_end + 1
    if (ss : Int) < bestEnd then (bestEnd + 1).toNat else end0
  else end0

/-- One-iteration-at-a-time embedding of the `while start < len(text)` loop of
`_create_chunks`.  `cs` is `self.chunk_size`, `ov` is `self.chunk_overlap`,
`acc` is the `chunks` list accumulated so far. -/
def chunkLoop (cs ov : Nat) (text : List Char) : Nat → Nat → List String → Option (List String)
  | 0, _, _ => none
  | fuel + 1, start, acc =>
    if start < text.length then
      let end1 := chunkEnd cs text start
      -- chunk = text[start:end].strip(); if chunk: chunks.append(chunk)
      let chunk := pyStrip (String.mk (pySlice text start end1))
      let acc' := if chunk = "" then acc else acc ++ [chunk]
      -- if end >= len(text): break
      if text.length ≤ end1 then some acc'
      else
        -- start = end - self.chunk_overlap; if start <= 0: start = end
        chunkLoop cs ov text fuel (if end1 ≤ ov then end1 else end1 - ov) acc'
    else some acc

/-- `PDFProcessor._create_chunks(text)` with `chunk_size = cs`,
`chunk_overlap = ov`, and an explicit iteration budget `fuel`. -/
def create_chunks (cs ov : Nat) (text : String) (fuel : Nat) : Option (List String) :=
  if text.length ≤ cs then some [text]
  else chunkLoop cs ov text.data fuel 0 []

/-! ### Data model of `QueryEngine` (query_engine.py)

A chunk dict produced by `PDFProcessor.extract_text_chunks` has keys
`text`, `chunk_id`, `length`, `source`; `_find_relevant_chunks` copies such a
dict and adds the keys `relevance_score`, `semantic_score`, `keyword_score`,
which we model as the separate transient record `ScoredChunk`. -/

structure Chunk where
  text : String
  chunk_id : Nat
  length : Nat
  source : String
deriving DecidableEq, Repr

instance : Inhabited Chunk := ⟨⟨"", 0, 0, ""⟩⟩

/-- A chunk dict after `.copy()` plus the three per-query score keys. -/
structure ScoredChunk where
  chunk : Chunk
  relevance_score : ℚ
  semantic_score : ℚ
  keyword_score : ℚ
deriving DecidableEq, Repr

/-- An embedding vector (a row of the numpy matrix), idealised over `ℚ`. -/
abbrev Embedding := List ℚ

/-- The mutable document-session fields of `QueryEngine`:
`self.document_chunks` and `self.chunk_embeddings` (`none` models `None`). -/
structure EngineState where
  document_chunks : List Chunk
  chunk_embeddings : Option (List Embedding)
deriving DecidableEq, Repr

/-- The state right after `QueryEngine.__init__`. -/
def initialState : EngineState := { document_chunks := [], chunk_embeddings := none }

/-- The Document Session alignment invariant: either the embedding matrix is
absent and no passages are stored, or one embedding row exists per passage. -/
def alignedB (st : EngineState) : Bool :=
  match st.chunk_embeddings with
  | none => st.document_chunks.isEmpty
  | some es => es.length == st.document_chunks.length

def aligned (st : EngineState) : Prop := alignedB st = true

instance (st : EngineState) : Decidable (aligned st) := by
  unfold aligned
  infer_instance

/-- Result dict of the question-answering pipeline: keys `answer`, `score`. -/
structure QAResult where
  answer : String
  score : ℚ
deriving DecidableEq, Repr

/-- A record of one external inference-service invocation, with its outcome
(`ok = false` means the call raised). -/
inductive SvcCall where
  | encode (texts : List String) (ok : Bool)
  | summarize (text : String) (maxLength minLength : Nat) (doSample : Bool) (ok : Bool)
  | qa (question context : String) (ok : Bool)
deriving DecidableEq, Repr

def SvcCall.succeeded : SvcCall → Bool
  | .encode _ ok => ok
  | .summarize _ _ _ _ ok => ok
  | .qa _ _ ok => ok

/-- The opaque external collaborators: the sentence-transformer `encode`, the
summarization pipeline, the QA pipeline (each may raise, modelled by
`Except`), and sklearn's `cosine_similarity` as an abstract pure function. -/
structure Services where
  encode : List String → Except String (List Embedding)
  summarize : String → Nat → Nat → Bool → Except String String
  qa : String → String → Except String QAResult
  cosineSim : Embedding → Embedding → ℚ

/-! ### `QueryEngine.initialize_document` and `clear_document` -/

/-- `QueryEngine.initialize_document(chunks)` (lines 33-47).  Note the source
assigns `self.document_chunks = chunks` *before* calling the embedding
service; if `encode` raises, the except-block logs and re-raises, leaving the
new chunks paired with the previous `chunk_embeddings` value. -/
def initialize_document (svc : Services) (st : EngineState) (chunks : List Chunk) :
    Except String Unit × EngineState :=
  let st1 : EngineState := { st with document_chunks := chunks }
  match svc.encode (chunks.map Chunk.text) with
  | .ok embs => (.ok (), { st1 with chunk_embeddings := some embs })
  | .error e => (.error e, st1)

/-- `QueryEngine.clear_document()` (lines 201-204). -/
def clear_document (_st : EngineState) : EngineState :=
  { document_chunks := [], chunk_embeddings := none }

/-! ### `QueryEngine._calculate_keyword_scores` (lines 155-172) -/

/-- `QueryEngine._calculate_keyword_scores(query_text)`; the first argument is
`self.document_chunks`.  Python sets become `Finset String`.  Note the source
filters only the *query* tokens by length, not the chunk tokens. -/
def calculate_keyword_scores (chunks : List Chunk) (query_text : String) : List ℚ :=
  let query_words := ((wordTokens (pyLower query_text)).toFinset).filter (fun w => 2 < w.length)
  if query_words = ∅ then
    List.replicate chunks.length 0
  else
    chunks.map (fun chunk =>
      let chunk_words := (wordTokens (pyLower chunk.text)).toFinset
      let intersection := query_words ∩ chunk_words
      let union := query_words ∪ chunk_words
      let jaccard_score : ℚ := if union.card ≠ 0 then (intersection.card : ℚ) / union.card else 0
      let phrase_boost : ℚ := if pyContains (pyLower chunk.text) (pyLower query_text) then 3/10 else 0
      min (jaccard_score + phrase_boost) 1)

/-! ### `QueryEngine._find_relevant_chunks` (lines 124-153) -/

/-- Stable insertion (descending by the score component): the new pair goes
after every pair whose score is `≥` its own, which reproduces the ordering of
Python's stable `list.sort(reverse=True, key=lambda x: x[0])`. -/
def insertDesc (a : ℚ × Nat) : List (ℚ × Nat) → List (ℚ × Nat)
  | [] => [a]
  | b :: t => if a.1 ≤ b.1 then b :: insertDesc a t else a :: b :: t

/-- Python's stable `combined_scores.sort(reverse=True, key=lambda x: x[0])`. -/
def sortDesc (l : List (ℚ × Nat)) : List (ℚ × Nat) :=
  l.foldl (fun acc a => insertDesc a acc) []

/-- The `(combined_score, i)` pairs of lines 132-135:
`for i, (sem, kw) in enumerate(zip(similarities, keyword_scores))`. -/
def combinedPairs (sims kws : List ℚ) : List (ℚ × Nat) :=
  (List.enum (sims.zip kws)).map (fun p => ((7:ℚ)/10 * p.2.1 + (3:ℚ)/10 * p.2.2, p.1))

/-- Lines 139-146: walk `combined_scores[:top_k]` and keep entries with
`score > 0.1` (order preserved). -/
def selectRelevant (combined : List (ℚ × Nat)) (top_k : Nat) : List (ℚ × Nat) :=
  ((sortDesc combined).take top_k).filter (fun p => decide ((1:ℚ)/10 < p.1))

/-- Lines 142-146: `chunk = self.document_chunks[idx].copy()` plus the three
score keys (`float(score)`, `float(similarities[idx])`,
`float(keyword_scores[idx])`).  The selected index is always in range, so the
`getD` defaults are never used. -/
def mkScoredChunk (chunks : List Chunk) (sims kws : List ℚ) (p : ℚ × Nat) : ScoredChunk :=
  { chunk := chunks.getD p.2 default
    relevance_score := p.1
    semantic_score := sims.getD p.2 0
    keyword_score := kws.getD p.2 0 }

/-- `QueryEngine._find_relevant_chunks(query_text, top_k)`.  The surrounding
`try/except` returns `[]` on any failure: a failing `encode` call lands there,
as does the `cosine_similarity` `TypeError` when `chunk_embeddings is None`.
The second component is the service-call log. -/
def find_relevant_chunks (svc : Services) (st : EngineState) (query_text : String)
    (top_k : Nat) : List ScoredChunk × List SvcCall :=
  match svc.encode [query_text] with
  | .error _ => ([], [SvcCall.encode [query_text] false])
  | .ok qembs =>
    match st.chunk_embeddings with
    | none => ([], [SvcCall.encode [query_text] true])
    | some embs =>
      let query_embedding := qembs.headD []
      let similarities := embs.map (svc.cosineSim query_embedding)
      let keyword_scores := calculate_keyword_scores st.document_chunks query_text
      let combined_scores := combinedPairs similarities keyword_scores
      let selected := selectRelevant combined_scores top_k
      (selected.map (mkScoredChunk st.document_chunks similarities keyword_scores),
       [SvcCall.encode [query_text] true])

/-! ### `QueryEngine._generate_response` and `query` (lines 82-121, 174-199) -/

/-- A single-quote character, used inside the source's f-strings. -/
def apos : String := (Char.ofNat 39).toString

def noDocMsg : String := "No document loaded. Please upload a PDF first."

def noInfoMsg : String :=
  "I couldn" ++ apos ++ "t find relevant information in the document to answer your query."

def errMsg (e : String) : String := "Error processing your query: " ++ e

def summaryMark : String := "📄 Summary of the document:\n\n"

def answerMark : String := "💡 Answer: "

/-- `QueryEngine._generate_response(query_text, relevant_chunks)`
(lines 174-199; its own except-block is unreachable for this pure body). -/
def generate_response (query_text : String) (relevant_chunks : List ScoredChunk) : String :=
  let sections := (List.enum relevant_chunks).map
    (fun (p : Nat × ScoredChunk) =>
      let chunk_text := p.2.chunk.text
      let chunk_text := if 800 < chunk_text.length then strTake chunk_text 800 ++ "..." else chunk_text
      ["--- Relevant Section " ++ toString (p.1 + 1) ++ " ---", chunk_text, ""])
  let response_parts := ["Based on the document content:\n"] ++ sections.flatten
  let response_parts := response_parts ++
    (if 1 < relevant_chunks.length then
      ["--- Summary ---",
       "The above content from " ++ toString relevant_chunks.length ++
         " sections answers your query about: " ++ apos ++ query_text ++ apos ++ "."]
    else [])
  let response := String.intercalate "\n" response_parts
  if 2000 < response.length then strTake response 2000 ++ "\n\n[Response truncated for readability]"
  else response

/-- Lines 88: `any(keyword in query_text.lower() for keyword in
["summarize", "summary", "overview"])`. -/
def summaryTrigger (query_text : String) : Bool :=
  ["summarize", "summary", "overview"].any (fun kw => pyContains (pyLower query_text) kw)

/-- Lines 99-110: the best-answer scan over the retrieved chunks.  Each QA
call may raise, aborting the loop; `best` is `(best_answer, best_score)`
starting at `("", -1)`, updated only on a strictly greater score. -/
def qaScan (svc : Services) (query_text : String) :
    List ScoredChunk → String × ℚ → List SvcCall → Except String (String × ℚ) × List SvcCall
  | [], best, log => (.ok best, log)
  | c :: rest, best, log =>
    let context := strTake c.chunk.text 1000
    match svc.qa query_text context with
    | .error e => (.error e, log ++ [SvcCall.qa query_text context false])
    | .ok r =>
      qaScan svc query_text rest
        (if best.2 < r.score then (r.answer, r.score) else best)
        (log ++ [SvcCall.qa query_text context true])

/-- The body of `QueryEngine.query` inside its `try:` (lines 83-117);
`.error` is an exception escaping to the top-level handler. -/
def queryBody (svc : Services) (st : EngineState) (query_text : String) (top_k : Nat) :
    Except String (String × Nat) × List SvcCall :=
  if st.document_chunks = [] ∨ st.chunk_embeddings = none then
    (.ok (noDocMsg, 0), [])
  else if summaryTrigger query_text then
    let full_text := strTake (String.intercalate " " (st.document_chunks.map Chunk.text)) 3000
    match svc.summarize full_text 180 60 false with
    | .error e => (.error e, [SvcCall.summarize full_text 180 60 false false])
    | .ok s => (.ok (summaryMark ++ s, 1), [SvcCall.summarize full_text 180 60 false true])
  else
    let fr := find_relevant_chunks svc st query_text top_k
    if fr.1 = [] then (.ok (noInfoMsg, 0), fr.2)
    else
      match qaScan svc query_text fr.1 ("", -1) fr.2 with
      | (.error e, log2) => (.error e, log2)
      | (.ok best, log2) =>
        if best.2 < 3/10 ∨ best.1 = "" ∨ (pyStrip best.1).length < 3 then
          (.ok (generate_response query_text fr.1, fr.1.length), log2)
        else
          (.ok (answerMark ++ pyStrip best.1, fr.1.length), log2)

/-- `QueryEngine.query(query_text, top_k)` (lines 82-121): the top-level
except-block converts any escaping exception into
`("Error processing your query: ...", 0)`.  The result also carries the
(unchanged) engine state and the service-call log. -/
def query (svc : Services) (st : EngineState) (query_text : String) (top_k : Nat) :
    (String × Nat) × EngineState × List SvcCall :=
  match queryBody svc st query_text top_k with
  | (.ok r, log) => (r, st, log)
  | (.error e, log) => ((errMsg e, 0), st, log)

/-! ### Helper lemmas: the stable descending sort -/

/-- `a` is ranked strictly before `b` by the retriever's ordering: a strictly
larger combined score, or an equal score with a smaller original index. -/
def rankBefore (a b : ℚ × Nat) : Prop := b.1 < a.1 ∨ (a.1 = b.1 ∧ a.2 < b.2)

theorem mem_insertDesc {a x : ℚ × Nat} : ∀ {l : List (ℚ × Nat)},
    x ∈ insertDesc a l ↔ x = a ∨ x ∈ l := by
  intro l
  induction l with
  | nil => simp [insertDesc]
  | cons b t ih =>
    simp only [insertDesc]
    split
    · simp only [List.mem_cons, ih]
      tauto
    · simp only [List.mem_cons]

theorem insertDesc_pairwise {a : ℚ × Nat} : ∀ {l : List (ℚ × Nat)},
    l.Pairwise rankBefore → (∀ b ∈ l, b.1 = a.1 → b.2 < a.2) →
    (insertDesc a l).Pairwise rankBefore := by
  intro l
  induction l with
  | nil => simp [insertDesc]
  | cons b t ih =>
    intro hl hidx
    rw [List.pairwise_cons] at hl
    simp only [insertDesc]
    split
    · rename_i hle
      rw [List.pairwise_cons]
      refine ⟨?_, ih hl.2 (fun c hc => hidx c (List.mem_cons_of_mem _ hc))⟩
      intro y hy
      rcases mem_insertDesc.mp hy with rfl | hyt
      · rcases lt_or_eq_of_le hle with hlt | heq
        · exact Or.inl hlt
        · exact Or.inr ⟨heq.symm, hidx b (List.mem_cons_self _ _) heq.symm⟩
      · exact hl.1 y hyt
    · rename_i hgt
      push_neg at hgt
      rw [List.pairwise_cons]
      refine ⟨?_, List.pairwise_cons.mpr hl⟩
      intro y hy
      rcases List.mem_cons.mp hy with rfl | hyt
      · exact Or.inl hgt
      · rcases hl.1 y hyt with h1 | h1
        · exact Or.inl (h1.trans hgt)
        · exact Or.inl (h1.1 ▸ hgt)

theorem mem_foldl_insertDesc {x : ℚ × Nat} : ∀ (l acc : List (ℚ × Nat)),
    x ∈ l.foldl (fun acc a => insertDesc a acc) acc → x ∈ acc ∨ x ∈ l := by
  intro l
  induction l with
  | nil => intro acc h; exact Or.inl h
  | cons a t ih =>
    intro acc h
    rcases ih (insertDesc a acc) h with h1 | h1
    · rcases mem_insertDesc.mp h1 with rfl | h2
      · exact Or.inr (List.mem_cons_self _ _)
      · exact Or.inl h2
    · exact Or.inr (List.mem_cons_of_mem _ h1)

theorem mem_sortDesc {x : ℚ × Nat} {l : List (ℚ × Nat)} (h : x ∈ sortDesc l) : x ∈ l := by
  rcases mem_foldl_insertDesc l [] h with h1 | h1
  · cases h1
  · exact h1

theorem foldl_insertDesc_pairwise : ∀ (l acc : List (ℚ × Nat)),
    acc.Pairwise rankBefore →
    (∀ x ∈ l, ∀ b ∈ acc, b.2 < x.2) →
    l.Pairwise (fun p q => p.2 < q.2) →
    (l.foldl (fun acc a => insertDesc a acc) acc).Pairwise rankBefore := by
  intro l
  induction l with
  | nil => intro acc hacc _ _; exact hacc
  | cons a t ih =>
    intro acc hacc hlt hl
    rw [List.pairwise_cons] at hl
    refine ih (insertDesc a acc) ?_ ?_ hl.2
    · exact insertDesc_pairwise hacc
        (fun b hb _ => hlt a (List.mem_cons_self _ _) b hb)
    · intro x hx b hb
      rcases mem_insertDesc.mp hb with rfl | h2
      · exact hl.1 x hx
      · exact hlt x (List.mem_cons_of_mem _ hx) b h2

/-- A list of pairs with strictly increasing indices is sorted by `sortDesc`
into the order "descending score, ties by ascending index" — exactly the
result of Python's stable descending sort. -/
theorem sortDesc_pairwise {l : List (ℚ × Nat)}
    (h : l.Pairwise (fun p q => p.2 < q.2)) : (sortDesc l).Pairwise rankBefore :=
  foldl_insertDesc_pairwise l [] (List.Pairwise.nil) (by intro x _ b hb; cases hb) h

/-! ### Helper lemmas: selection pipeline -/

theorem enum_pairwise_fst {α : Type} (l : List α) :
    l.enum.Pairwise (fun p q => p.1 < q.1) := by
  rw [List.pairwise_iff_getElem]
  intro i j hi hj hij
  simp only [List.getElem_enum]
  simpa using hij

theorem fst_lt_of_mem_enum {α : Type} {p : Nat × α} {l : List α}
    (h : p ∈ l.enum) : p.1 < l.length := by
  rw [List.mem_iff_getElem] at h
  obtain ⟨i, hi, hEq⟩ := h
  rw [List.getElem_enum] at hEq
  subst hEq
  simpa using hi

theorem combinedPairs_pairwise (sims kws : List ℚ) :
    (combinedPairs sims kws).Pairwise (fun p q => p.2 < q.2) := by
  unfold combinedPairs
  rw [List.pairwise_map]
  exact enum_pairwise_fst _

theorem snd_lt_of_mem_combinedPairs {p : ℚ × Nat} {sims kws : List ℚ}
    (h : p ∈ combinedPairs sims kws) : p.2 < (sims.zip kws).length := by
  unfold combinedPairs at h
  rw [List.mem_map] at h
  obtain ⟨q, hq, hEq⟩ := h
  subst hEq
  exact fst_lt_of_mem_enum hq

theorem selectRelevant_length_le (combined : List (ℚ × Nat)) (k : Nat) :
    (selectRelevant combined k).length ≤ k := by
  unfold selectRelevant
  calc (((sortDesc combined).take k).filter _).length
      ≤ ((sortDesc combined).take k).length := List.length_filter_le _ _
    _ ≤ k := List.length_take_le _ _

theorem mem_selectRelevant {x : ℚ × Nat} {combined : List (ℚ × Nat)} {k : Nat}
    (h : x ∈ selectRelevant combined k) : x ∈ combined ∧ (1:ℚ)/10 < x.1 := by
  unfold selectRelevant at h
  rw [List.mem_filter] at h
  refine ⟨mem_sortDesc (List.mem_of_mem_take h.1), by simpa using h.2⟩

theorem selectRelevant_pairwise {combined : List (ℚ × Nat)} (k : Nat)
    (h : combined.Pairwise (fun p q => p.2 < q.2)) :
    (selectRelevant combined k).Pairwise rankBefore := by
  unfold selectRelevant
  exact List.Pairwise.sublist ((List.filter_sublist _).trans (List.take_sublist _ _))
    (sortDesc_pairwise h)

theorem selectRelevant_eq_nil {combined : List (ℚ × Nat)} (k : Nat)
    (h : ∀ p ∈ combined, p.1 ≤ (1:ℚ)/10) : selectRelevant combined k = [] := by
  unfold selectRelevant
  rw [List.filter_eq_nil_iff]
  intro p hp
  have := h p (mem_sortDesc (List.mem_of_mem_take hp))
  simpa using not_lt.mpr this

theorem calculate_keyword_scores_length (chunks : List Chunk) (q : String) :
    (calculate_keyword_scores chunks q).length = chunks.length := by
  unfold calculate_keyword_scores
  by_cases h : Finset.filter (fun w => 2 < w.length) (wordTokens (pyLower q)).toFinset = ∅ <;>
    simp [h]

/-! ### Concrete fixtures used by witnesses and counterexamples -/

/-- A benign service assignment: every text encodes to the vector `[1]`,
summaries and answers are fixed, cosine similarity is constantly `1/2`. -/
def okSvc : Services where
  encode ts := .ok (ts.map (fun _ => [(1:ℚ)]))
  summarize _ _ _ _ := .ok "A short summary."
  qa _ _ := .ok { answer := " Paris ", score := 9/10 }
  cosineSim _ _ := (1:ℚ)/2

/-- Like `okSvc` but the embedding service raises on every call. -/
def encFailSvc : Services := { okSvc with encode := fun _ => .error "CUDA out of memory" }

def chA : Chunk := { text := "first document text", chunk_id := 0, length := 19, source := "a.pdf" }
def chB : Chunk := { text := "second document, part one", chunk_id := 0, length := 25, source := "b.pdf" }
def chC : Chunk := { text := "second document, part two", chunk_id := 1, length := 25, source := "b.pdf" }

def c0 : Chunk := { text := "alpha beta", chunk_id := 0, length := 10, source := "d.pdf" }

/-- A loaded single-chunk session (as produced by a successful load of `c0`). -/
def cSt : EngineState := { document_chunks := [c0], chunk_embeddings := some [[1]] }

/-! ### Claim theorems -/

/-- **C1.** The claim says the alignment invariant (passages and embeddings
both empty/absent, or index-aligned of equal length) survives every
operation, including a document load in which the embedding service call
fails.  The code violates this: `initialize_document` assigns
`self.document_chunks = chunks` *before* calling `encode`, so when `encode`
raises, the engine is left with the new passages paired with the stale
embedding matrix.  Concretely: a successful load of one chunk followed by a
failing load of two chunks leaves 2 passages against a 1-row matrix. -/
theorem c1_failed_load_breaks_alignment :
    (initialize_document okSvc initialState [chA]).1 = .ok () ∧
    aligned (initialize_document okSvc initialState [chA]).2 ∧
    (initialize_document encFailSvc (initialize_document okSvc initialState [chA]).2
        [chB, chC]).1 = .error "CUDA out of memory" ∧
    ¬ aligned (initialize_document encFailSvc (initialize_document okSvc initialState [chA]).2
        [chB, chC]).2 ∧
    (initialize_document encFailSvc (initialize_document okSvc initialState [chA]).2
        [chB, chC]).2.document_chunks = [chB, chC] ∧
    (initialize_document encFailSvc (initialize_document okSvc initialState [chA]).2
        [chB, chC]).2.chunk_embeddings = some [[1]] :=
  ⟨rfl, by decide, rfl, by decide, rfl, rfl⟩

/-- **C5.** The retriever (`_find_relevant_chunks` with `top_k = 5`) returns
at most 5 passages; each returned passage has combined score
`0.7·semantic + 0.3·keyword` strictly above the `0.1` floor; the returned
sequence is the image of the selected `(combinedScore, originalIndex)` pairs,
which are ordered descending by combined score with exact ties ordered by
ascending original passage index (`rankBefore`); and when no passage clears
the floor the result is empty. -/
theorem c5_retriever_topk (svc : Services) (st : EngineState) (q : String)
    (qembs embs : List Embedding) (sims kws : List ℚ)
    (hq : svc.encode [q] = .ok qembs)
    (he : st.chunk_embeddings = some embs)
    (hsims : sims = embs.map (svc.cosineSim (qembs.headD [])))
    (hkws : kws = calculate_keyword_scores st.document_chunks q) :
    (find_relevant_chunks svc st q 5).1.length ≤ 5 ∧
    (∀ sc ∈ (find_relevant_chunks svc st q 5).1, (1:ℚ)/10 < sc.relevance_score) ∧
    (find_relevant_chunks svc st q 5).1 =
      (selectRelevant (combinedPairs sims kws) 5).map
        (mkScoredChunk st.document_chunks sims kws) ∧
    (selectRelevant (combinedPairs sims kws) 5).Pairwise rankBefore ∧
    ((∀ p ∈ combinedPairs sims kws, p.1 ≤ (1:ℚ)/10) →
      (find_relevant_chunks svc st q 5).1 = []) := by
  subst hsims hkws
  have hfr : (find_relevant_chunks svc st q 5).1 =
      (selectRelevant (combinedPairs (embs.map (svc.cosineSim (qembs.headD [])))
          (calculate_keyword_scores st.document_chunks q)) 5).map
        (mkScoredChunk st.document_chunks (embs.map (svc.cosineSim (qembs.headD [])))
          (calculate_keyword_scores st.document_chunks q)) := by
    unfold find_relevant_chunks
    rw [hq, he]
  refine ⟨?_, ?_, hfr, selectRelevant_pairwise 5 (combinedPairs_pairwise _ _), ?_⟩
  · rw [hfr, List.length_map]
    exact selectRelevant_length_le _ 5
  · intro sc hsc
    rw [hfr, List.mem_map] at hsc
    obtain ⟨p, hp, rfl⟩ := hsc
    exact (mem_selectRelevant hp).2
  · intro hall
    rw [hfr, selectRelevant_eq_nil 5 hall, List.map_nil]

/-- Witness for C5 at a concrete loaded session and query. -/
theorem c5_retriever_topk_witness :
    (find_relevant_chunks okSvc cSt "alpha" 5).1.length ≤ 5 :=
  (c5_retriever_topk okSvc cSt "alpha" [[1]] [[1]] _ _ rfl rfl rfl rfl).1

/-- **C9.** A query leaves the Document Session unchanged: `query` returns
the engine state it was given (the source never assigns the fields), and
every `ScoredChunk` handed to ranking/response building is a copy — its
underlying chunk is (a value equal to) a stored chunk, while the stored list
itself keeps no score fields. -/
theorem c9_query_frame (svc : Services) (st : EngineState) (q : String) (k : Nat) :
    (query svc st q k).2.1 = st ∧
    ∀ sc ∈ (find_relevant_chunks svc st q k).1, sc.chunk ∈ st.document_chunks := by
  constructor
  · unfold query
    rcases hq : queryBody svc st q k with ⟨r, log⟩
    cases r <;> rfl
  · intro sc hsc
    unfold find_relevant_chunks at hsc
    rcases henc : svc.encode [q] with e | qembs <;> rw [henc] at hsc
    · simp at hsc
    · rcases hemb : st.chunk_embeddings with _ | embs <;> rw [hemb] at hsc
      · simp at hsc
      · simp only [List.mem_map] at hsc
        obtain ⟨p, hp, rfl⟩ := hsc
        have hmem := (mem_selectRelevant hp).1
        have hlt := snd_lt_of_mem_combinedPairs hmem
        rw [List.length_zip, List.length_map,
          calculate_keyword_scores_length] at hlt
        have hidx : p.2 < st.document_chunks.length := lt_of_lt_of_le hlt (min_le_right _ _)
        unfold mkScoredChunk
        simp only
        rw [List.getD_eq_getElem _ _ hidx]
        exact List.getElem_mem _

/-! ### C2: non-termination of the chunking loop -/

/-- Eleven `a`s, a period, ten `a`s: with `chunk_size = 10`, `chunk_overlap = 5`
the sentence-boundary search pulls `end` back to 12 while the overlap pulls
`start` back to 7, forever. -/
def badChunkText : String := "aaaaaaaaaaa.aaaaaaaaaa"

theorem chunkLoop_stuck_at7 : ∀ (fuel : Nat) (acc : List String),
    chunkLoop 10 5 badChunkText.data fuel 7 acc = none := by
  intro fuel
  induction fuel with
  | zero => intro acc; rfl
  | succ n ih =>
    intro acc
    have hstep : chunkLoop 10 5 badChunkText.data (n + 1) 7 acc =
        chunkLoop 10 5 badChunkText.data n 7 (acc ++ ["aaaa."]) := rfl
    rw [hstep]
    exact ih _

/-- **C2.** The claim says that for every configuration with
`0 ≤ overlap < chunkSize`, `_create_chunks` terminates (and covers the text).
The code does not: the guard `if start <= 0: start = end` compares against
the absolute position 0, not against the previous boundary, so the loop can
revisit the same `start` forever.  With `chunk_size = 10`,
`chunk_overlap = 5` (valid: `5 < 10`) on `badChunkText`, the loop reaches
`start = 7`, recomputes `end = 12` from the period at index 11, sets
`start = 12 - 5 = 7` again, and appends `"aaaa."` without end: no amount of
fuel makes it finish. -/
theorem c2_chunking_diverges : ∀ fuel : Nat, create_chunks 10 5 badChunkText fuel = none := by
  intro fuel
  obtain _ | _ | _ | n := fuel
  · rfl
  · rfl
  · rfl
  · have h3 : create_chunks 10 5 badChunkText (n + 3) =
        chunkLoop 10 5 badChunkText.data (n + 1) 7 ["aaaaaaaaaaa", "aaaaa."] := rfl
    rw [h3]
    exact chunkLoop_stuck_at7 _ _

/-! ### C3: the keyword score formula -/

/-- Modelled from the spec's wording for claim C3: Jaccard similarity between
the query token set and the passage token set with *both* sets restricted to
lowercase word tokens of length > 2, plus a flat 0.3 verbatim-substring
bonus, clamped at 1.0. -/
def keywordScoreClaimed (query_text passage : String) : ℚ :=
  let qs := ((wordTokens (pyLower query_text)).toFinset).filter (fun w => 2 < w.length)
  let ps := ((wordTokens (pyLower passage)).toFinset).filter (fun w => 2 < w.length)
  let u := qs ∪ ps
  let jaccard : ℚ := if u.card = 0 then 0 else ((qs ∩ ps).card : ℚ) / u.card
  let bonus : ℚ := if pyContains (pyLower passage) (pyLower query_text) then 3/10 else 0
  min (jaccard + bonus) 1

def cxChunk : Chunk := { text := "a cat", chunk_id := 0, length := 5, source := "d.pdf" }

/-- **C3 (counterexample).** For query `"big cat"` and passage `"a cat"`, the
code keeps the passage token `"a"` (it filters only the query tokens by
length), giving Jaccard `1/3`, while the claimed both-sides-filtered formula
gives `1/2`.  So the keyword score does not equal the claimed formula. -/
theorem c3_counterexample :
    calculate_keyword_scores [cxChunk] "big cat" = [(1:ℚ)/3] ∧
    keywordScoreClaimed "big cat" "a cat" = (1:ℚ)/2 ∧
    (1:ℚ)/3 ≠ (1:ℚ)/2 := by
  refine ⟨?_, ?_, by norm_num⟩
  · simp only [calculate_keyword_scores]
    rw [if_neg (by decide), List.map_cons, List.map_nil]
    rw [if_pos (by decide), if_neg (by decide)]
    rw [show ((((wordTokens (pyLower "big cat")).toFinset).filter (fun w => 2 < w.length)) ∩
        (wordTokens (pyLower cxChunk.text)).toFinset).card = 1 from by decide]
    rw [show ((((wordTokens (pyLower "big cat")).toFinset).filter (fun w => 2 < w.length)) ∪
        (wordTokens (pyLower cxChunk.text)).toFinset).card = 3 from by decide]
    rw [min_eq_left (by norm_num)]
    norm_num
  · simp only [keywordScoreClaimed]
    rw [if_neg (by decide), if_neg (by decide)]
    rw [show ((((wordTokens (pyLower "big cat")).toFinset).filter (fun w => 2 < w.length)) ∩
        (((wordTokens (pyLower "a cat")).toFinset).filter (fun w => 2 < w.length))).card = 1
      from by decide]
    rw [show ((((wordTokens (pyLower "big cat")).toFinset).filter (fun w => 2 < w.length)) ∪
        (((wordTokens (pyLower "a cat")).toFinset).filter (fun w => 2 < w.length))).card = 2
      from by decide]
    rw [min_eq_left (by norm_num)]
    norm_num

/-- The keyword-score formula the code actually implements: as claimed, but
the passage token set is *not* filtered by token length (every word token of
the passage counts), and a query with no token of length > 2 scores 0.0 with
no verbatim bonus. -/
def keywordScoreAmended (query_text passage : String) : ℚ :=
  let qs := ((wordTokens (pyLower query_text)).toFinset).filter (fun w => 2 < w.length)
  if qs = ∅ then 0
  else
    let ps := (wordTokens (pyLower passage)).toFinset
    let u := qs ∪ ps
    let jaccard : ℚ := if u.card = 0 then 0 else ((qs ∩ ps).card : ℚ) / u.card
    let bonus : ℚ := if pyContains (pyLower passage) (pyLower query_text) then 3/10 else 0
    min (jaccard + bonus) 1

/-- **C3 (amended).** For every query and every chunk list, the keyword score
of each passage equals the Jaccard similarity between the length->2-filtered
query token set and the *unfiltered* passage token set, plus the 0.3
verbatim-substring bonus, clamped at 1.0 (and 0.0 outright when the query
has no token of length > 2). -/
theorem c3_keyword_scores_amended (chunks : List Chunk) (q : String) :
    calculate_keyword_scores chunks q =
      chunks.map (fun c => keywordScoreAmended q c.text) := by
  unfold calculate_keyword_scores keywordScoreAmended
  by_cases h : ((wordTokens (pyLower q)).toFinset).filter (fun w => 2 < w.length) = ∅
  · simp only [h, if_pos rfl, if_true, eq_self_iff_true]
    rw [List.map_const']
  · simp only [h, if_neg h, if_false]
    apply List.map_congr_left
    intro c _
    by_cases hu : (((wordTokens (pyLower q)).toFinset).filter (fun w => 2 < w.length) ∪
        (wordTokens (pyLower c.text)).toFinset).card = 0
    · simp [hu]
    · simp [hu]

/-! ### C10: queries with no長-enough token -/

/-- Helper: zipping against a replicated 0 keeps the truncated first list. -/
theorem zip_replicate_zero (sims : List ℚ) : ∀ n : Nat,
    sims.zip (List.replicate n (0:ℚ)) = (sims.take n).map (fun s => (s, (0:ℚ))) := by
  induction sims with
  | nil => intro n; simp
  | cons s t ih =>
    intro n
    cases n with
    | zero => simp
    | succ m => simp [List.replicate_succ, List.zip_cons_cons, ih m, List.map_take]

/-- **C10.** For a query whose lowercased word tokens are all of length ≤ 2,
every passage's keyword score is exactly 0.0 (the verbatim-phrase bonus is
never applied), and every combined score reduces to `0.7 · semantic`, so
ranking is determined by the semantic score alone. -/
theorem c10_short_token_queries (q : String) (chunks : List Chunk)
    (h : ((wordTokens (pyLower q)).toFinset).filter (fun w => 2 < w.length) = ∅) :
    calculate_keyword_scores chunks q = List.replicate chunks.length 0 ∧
    ∀ sims : List ℚ, combinedPairs sims (calculate_keyword_scores chunks q) =
      (sims.take chunks.length).enum.map (fun p => ((7:ℚ)/10 * p.2, p.1)) := by
  have h0 : calculate_keyword_scores chunks q = List.replicate chunks.length 0 := by
    unfold calculate_keyword_scores
    rw [if_pos h]
  refine ⟨h0, ?_⟩
  intro sims
  rw [h0]
  unfold combinedPairs
  rw [zip_replicate_zero, List.enum_map, List.map_map]
  apply List.map_congr_left
  intro p _
  simp [Prod.map]

/-- Witness for C10: the query `"a b"` has no token of length > 2. -/
theorem c10_short_token_queries_witness :
    calculate_keyword_scores [c0] "a b" = List.replicate ([c0] : List Chunk).length 0 :=
  (c10_short_token_queries "a b" [c0] (by decide)).1

/-! ### C4: the chunker contract on short inputs and trimming -/

theorem dropWhile_head_false {p : Char → Bool} :
    ∀ {l : List Char} {a : Char} {t : List Char},
      List.dropWhile p l = a :: t → p a = false := by
  intro l
  induction l with
  | nil => intro a t h; cases h
  | cons c cl ih =>
    intro a t h
    rw [List.dropWhile_cons] at h
    by_cases hp : p c = true
    · rw [if_pos hp] at h
      exact ih h
    · rw [if_neg hp] at h
      cases h
      exact Bool.not_eq_true _ |>.mp hp

theorem exists_false_mem_dropWhile {p : Char → Bool} :
    ∀ {l : List Char}, (∃ x ∈ l, p x = false) →
      ∃ y ∈ List.dropWhile p l, p y = false := by
  intro l
  induction l with
  | nil => rintro ⟨x, hx, -⟩; cases hx
  | cons c cl ih =>
    rintro ⟨x, hx, hfx⟩
    rw [List.dropWhile_cons]
    by_cases hp : p c = true
    · rw [if_pos hp]
      rcases List.mem_cons.mp hx with rfl | hx'
      · rw [hp] at hfx; cases hfx
      · exact ih ⟨x, hx', hfx⟩
    · rw [if_neg hp]
      exact ⟨c, List.mem_cons_self _ _, Bool.not_eq_true _ |>.mp hp⟩

theorem pyStripL_ne_nil {l : List Char} (h : ∃ x ∈ l, pySpace x = false) :
    pyStripL l ≠ [] := by
  unfold pyStripL dropLeadSpace
  obtain ⟨x, hx, hfx⟩ := h
  have h1 : ∃ y ∈ List.dropWhile pySpace l.reverse, pySpace y = false :=
    exists_false_mem_dropWhile ⟨x, List.mem_reverse.mpr hx, hfx⟩
  obtain ⟨y, hy, hfy⟩ := h1
  have h2 : ∃ z ∈ List.dropWhile pySpace (List.dropWhile pySpace l.reverse).reverse,
      pySpace z = false :=
    exists_false_mem_dropWhile ⟨y, List.mem_reverse.mpr hy, hfy⟩
  obtain ⟨z, hz, -⟩ := h2
  exact List.ne_nil_of_mem hz

theorem pyStrip_ne_empty_iff (s : String) : pyStrip s ≠ "" ↔ pyStripL s.data ≠ [] := by
  unfold pyStrip
  constructor
  · intro h h0
    exact h (by rw [h0])
  · intro h h0
    apply h
    have h1 := congrArg String.data h0
    simpa using h1

/-- Stripping an already-stripped non-empty string keeps it non-empty. -/
theorem pyStrip_pyStrip_ne {s : String} (h : pyStrip s ≠ "") :
    pyStrip (pyStrip s) ≠ "" := by
  rw [pyStrip_ne_empty_iff] at h ⊢
  rcases hA : pyStripL s.data with _ | ⟨a, t⟩
  · exact absurd hA h
  · have ha : pySpace a = false := by
      have := hA
      unfold pyStripL dropLeadSpace at this
      exact dropWhile_head_false this
    show pyStripL (pyStrip s).data ≠ []
    have hdata : (pyStrip s).data = a :: t := by
      unfold pyStrip
      rw [hA]
    rw [hdata]
    exact pyStripL_ne_nil ⟨a, List.mem_cons_self _ _, ha⟩

/-- Every chunk appended by the splitting loop is non-empty after stripping
(the loop appends `text[start:end].strip()` only when it is truthy). -/
theorem chunkLoop_all_stripped {cs ov : Nat} {text : List Char} :
    ∀ (fuel start : Nat) (acc chunks : List String),
      (∀ c ∈ acc, pyStrip c ≠ "") →
      chunkLoop cs ov text fuel start acc = some chunks →
      ∀ c ∈ chunks, pyStrip c ≠ "" := by
  intro fuel
  induction fuel with
  | zero =>
    intro start acc chunks _ h
    cases h
  | succ n ih =>
    intro start acc chunks hacc h
    simp only [chunkLoop] at h
    by_cases hs : start < text.length
    · rw [if_pos hs] at h
      have hacc' : ∀ c ∈ (if pyStrip (String.mk (pySlice text start (chunkEnd cs text start))) = ""
          then acc
          else acc ++ [pyStrip (String.mk (pySlice text start (chunkEnd cs text start)))]),
          pyStrip c ≠ "" := by
        by_cases hch : pyStrip (String.mk (pySlice text start (chunkEnd cs text start))) = ""
        · rwa [if_pos hch]
        · rw [if_neg hch]
          intro c hc
          rcases List.mem_append.mp hc with hc1 | hc1
          · exact hacc c hc1
          · rcases List.mem_singleton.mp hc1 with rfl
            exact pyStrip_pyStrip_ne hch
      by_cases hend : text.length ≤ chunkEnd cs text start
      · rw [if_pos hend] at h
        injection h with h'
        subst h'
        exact hacc'
      · rw [if_neg hend] at h
        exact ih _ _ _ hacc' h
    · rw [if_neg hs] at h
      injection h with h'
      subst h'
      exact hacc

/-- **C4 (counterexample).** The claim says chunking a text of length
≤ chunkSize yields one chunk equal to the *trimmed* input, and that every
returned chunk is non-empty after trimming.  The short-input path
`return [text]` performs no trimming: `" a "` comes back untrimmed, and the
all-whitespace input `" "` comes back as a chunk that is empty after
trimming. -/
theorem c4_counterexample :
    create_chunks 1000 200 " a " 1 = some [" a "] ∧
    pyStrip " a " = "a" ∧ (" a " : String) ≠ "a" ∧
    create_chunks 1000 200 " " 1 = some [" "] ∧
    pyStrip " " = "" :=
  ⟨rfl, by decide, by decide, rfl, by decide⟩

/-- **C4 (amended).** For input of length ≤ chunkSize, chunking returns
exactly one chunk equal to the input *as is* (not trimmed, so it may even be
whitespace-only); for longer inputs, every chunk the loop returns is
non-empty after trimming. -/
theorem c4_short_input_and_trimming (cs ov : Nat) (text : String) (fuel : Nat)
    (chunks : List String) (h : create_chunks cs ov text fuel = some chunks) :
    if text.length ≤ cs then chunks = [text]
    else ∀ c ∈ chunks, pyStrip c ≠ "" := by
  unfold create_chunks at h
  by_cases hlen : text.length ≤ cs
  · rw [if_pos hlen] at h ⊢
    injection h with h'
    exact h'.symm
  · rw [if_neg hlen] at h ⊢
    exact chunkLoop_all_stripped fuel 0 [] chunks (by intro c hc; cases hc) h

/-- Witness for C4 (amended) on a 22-character text with `chunk_size = 10`:
both loop chunks strip to themselves and are non-empty. -/
theorem c4_short_input_and_trimming_witness :
    pyStrip "Hello there" ≠ "" ∧ pyStrip ". Good day." ≠ "" := by
  have h := c4_short_input_and_trimming 10 0 "Hello there. Good day." 50
    ["Hello there", ". Good day."] rfl
  rw [if_neg (by decide)] at h
  exact ⟨h _ (by simp), h _ (by simp)⟩

/-! ### C7: summarization short-circuits retrieval -/

/-- **C7.** When a document is loaded and the lowercased query contains one of
`"summarize"`, `"summary"`, `"overview"`, `query` invokes the summarization
service exactly once — its call log is the single summarize call — on the
first ≤ 3000 characters of the passages' text joined in passage order, with
`max_length=180, min_length=60, do_sample=False` (deterministic), returns the
summary behind the document-summary marker with 1 passage used, and never
calls the embedding (retriever) or QA service. -/
theorem c7_summary_short_circuit (svc : Services) (st : EngineState) (q s ft : String)
    (hdoc : ¬(st.document_chunks = [] ∨ st.chunk_embeddings = none))
    (hsum : summaryTrigger q = true)
    (hft : ft = strTake (String.intercalate " " (st.document_chunks.map Chunk.text)) 3000)
    (hs : svc.summarize ft 180 60 false = .ok s) :
    query svc st q 5 = ((summaryMark ++ s, 1), st, [SvcCall.summarize ft 180 60 false true]) ∧
    ft.length ≤ 3000 := by
  subst hft
  constructor
  · unfold query queryBody
    rw [if_neg hdoc, hsum]
    rw [if_pos rfl]
    dsimp only
    rw [hs]
  · show (String.mk _).length ≤ 3000
    show (List.take 3000 _).length ≤ 3000
    exact List.length_take_le _ _

/-- Witness for C7: `"summarize this document"` on a loaded session. -/
theorem c7_summary_short_circuit_witness :
    query okSvc cSt "summarize this document" 5 =
      ((summaryMark ++ "A short summary.", 1), cSt,
       [SvcCall.summarize
          (strTake (String.intercalate " " (cSt.document_chunks.map Chunk.text)) 3000)
          180 60 false true]) :=
  (c7_summary_short_circuit okSvc cSt "summarize this document" "A short summary." _
    (by decide) (by decide) rfl rfl).1

/-! ### C6: the extractive-QA acceptance decision -/

/-- **C6.** On a loaded document, for a non-summarization query that retrieves
at least one passage and whose QA calls all succeed with best result
`(ba, bs)`: if the best confidence is below 0.3, or the best answer is empty,
or its trimmed length is under 3, `query` returns the fallback excerpt
response (`_generate_response`) with `passagesUsed` = number of retrieved
passages; otherwise it returns the trimmed best answer behind the answer
marker with `passagesUsed` = number of passages examined (all retrieved
passages are examined, so the same count). -/
theorem c6_answer_decision (svc : Services) (st : EngineState) (q : String)
    (rel : List ScoredChunk) (log1 log2 : List SvcCall) (ba : String) (bs : ℚ)
    (hdoc : ¬(st.document_chunks = [] ∨ st.chunk_embeddings = none))
    (hsum : summaryTrigger q = false)
    (hrel : find_relevant_chunks svc st q 5 = (rel, log1))
    (hne : rel ≠ [])
    (hqa : qaScan svc q rel ("", -1) log1 = (.ok (ba, bs), log2)) :
    ((bs < 3/10 ∨ ba = "" ∨ (pyStrip ba).length < 3) →
      (query svc st q 5).1 = (generate_response q rel, rel.length)) ∧
    (¬(bs < 3/10 ∨ ba = "" ∨ (pyStrip ba).length < 3) →
      (query svc st q 5).1 = (answerMark ++ pyStrip ba, rel.length)) := by
  have hbody : queryBody svc st q 5 =
      (if bs < 3/10 ∨ ba = "" ∨ (pyStrip ba).length < 3 then
        (.ok (generate_response q rel, rel.length), log2)
      else (.ok (answerMark ++ pyStrip ba, rel.length), log2)) := by
    unfold queryBody
    rw [if_neg hdoc, hsum]
    rw [if_neg (by simp)]
    dsimp only
    rw [hrel]
    dsimp only
    rw [if_neg hne, hqa]
  constructor
  · intro hcond
    unfold query
    rw [hbody, if_pos hcond]
  · intro hcond
    unfold query
    rw [hbody, if_neg hcond]

/-! ### Concrete evaluation lemmas (shared by several witnesses) -/

/-- The scored copy of `c0` produced for the query `"alpha"`. -/
def sc0 : ScoredChunk :=
  { chunk := c0, relevance_score := 59/100, semantic_score := 1/2, keyword_score := 4/5 }

theorem kw_c0_alpha : calculate_keyword_scores [c0] "alpha" = [(4:ℚ)/5] := by
  simp only [calculate_keyword_scores]
  rw [if_neg (by decide), List.map_cons, List.map_nil]
  rw [if_pos (by decide), if_pos (by decide)]
  rw [show ((((wordTokens (pyLower "alpha")).toFinset).filter (fun w => 2 < w.length)) ∩
      (wordTokens (pyLower c0.text)).toFinset).card = 1 from by decide]
  rw [show ((((wordTokens (pyLower "alpha")).toFinset).filter (fun w => 2 < w.length)) ∪
      (wordTokens (pyLower c0.text)).toFinset).card = 2 from by decide]
  rw [min_eq_left (by norm_num)]
  norm_num

theorem combined_half_fourfifth : combinedPairs [(1:ℚ)/2] [(4:ℚ)/5] = [((59:ℚ)/100, 0)] := by
  simp [combinedPairs, List.enum, List.enumFrom]
  norm_num

theorem select_59 : selectRelevant [((59:ℚ)/100, 0)] 5 = [((59:ℚ)/100, 0)] := by
  unfold selectRelevant sortDesc
  simp only [List.foldl_cons, List.foldl_nil, insertDesc]
  rw [show List.take 5 [((59:ℚ)/100, 0)] = [((59:ℚ)/100, 0)] from rfl]
  rw [List.filter_cons]
  rw [show (decide ((1:ℚ)/10 < ((59:ℚ)/100, 0).1)) = true from decide_eq_true (by norm_num)]
  simp

/-- Evaluating the retriever on the one-chunk session for any services that
encode everything to `[1]` and have constant cosine similarity 1/2. -/
theorem frc_eval (svc : Services)
    (henc : svc.encode = fun ts => .ok (ts.map (fun _ => [(1:ℚ)])))
    (hcos : svc.cosineSim = fun _ _ => (1:ℚ)/2) :
    find_relevant_chunks svc cSt "alpha" 5 = ([sc0], [SvcCall.encode ["alpha"] true]) := by
  unfold find_relevant_chunks
  rw [show svc.encode ["alpha"] = Except.ok [[(1:ℚ)]] from by rw [henc]; rfl]
  rw [show cSt.chunk_embeddings = some [[(1:ℚ)]] from rfl]
  dsimp only
  rw [show ([[(1:ℚ)]] : List Embedding).map (svc.cosineSim (([[(1:ℚ)]] : List Embedding).headD []))
      = [(1:ℚ)/2] from by rw [hcos]; rfl]
  rw [show cSt.document_chunks = [c0] from rfl, kw_c0_alpha]
  rw [combined_half_fourfifth, select_59]
  rw [show ([((59:ℚ)/100, 0)]).map (mkScoredChunk [c0] [(1:ℚ)/2] [(4:ℚ)/5]) = [sc0]
    from by simp [mkScoredChunk, sc0]]

theorem qaScan_okSvc_eval :
    qaScan okSvc "alpha" [sc0] ("", -1) [SvcCall.encode ["alpha"] true] =
    (.ok (" Paris ", 9/10),
     [SvcCall.encode ["alpha"] true, SvcCall.qa "alpha" "alpha beta" true]) := by
  simp only [qaScan]
  rw [show okSvc.qa "alpha" (strTake sc0.chunk.text 1000) =
      Except.ok { answer := " Paris ", score := 9/10 } from rfl]
  dsimp only
  rw [if_pos (show (("", (-1:ℚ))).2 < ({ answer := " Paris ", score := 9/10 } : QAResult).score
    from by norm_num)]
  rfl

/-- Witness for C6: confidence 9/10 ≥ 0.3 and answer "Paris" (length ≥ 3)
is accepted, trimmed and prefixed, with 1 passage examined. -/
theorem c6_answer_decision_witness :
    (query okSvc cSt "alpha" 5).1 = (answerMark ++ pyStrip " Paris ", 1) :=
  (c6_answer_decision okSvc cSt "alpha" [sc0] [SvcCall.encode ["alpha"] true]
    [SvcCall.encode ["alpha"] true, SvcCall.qa "alpha" "alpha beta" true] " Paris " (9/10)
    (by decide) (by decide) (frc_eval okSvc rfl rfl) (List.cons_ne_nil _ _)
    qaScan_okSvc_eval).2
    (by push_neg; exact ⟨by norm_num, by decide, by decide⟩)

/-! ### C8: service failures degrade to a textual response -/

theorem find_log_cases (svc : Services) (st : EngineState) (q : String) (k : Nat) :
    (find_relevant_chunks svc st q k).2 = [SvcCall.encode [q] true] ∨
    ((find_relevant_chunks svc st q k).2 = [SvcCall.encode [q] false] ∧
     (find_relevant_chunks svc st q k).1 = []) := by
  unfold find_relevant_chunks
  rcases he : svc.encode [q] with e | qembs
  · exact Or.inr ⟨rfl, rfl⟩
  · rcases hc : st.chunk_embeddings with _ | embs
    · exact Or.inl rfl
    · exact Or.inl rfl

theorem qaScan_ok_log (svc : Services) (q : String) :
    ∀ (rel : List ScoredChunk) (best : String × ℚ) (log : List SvcCall)
      (v : String × ℚ) (log2 : List SvcCall),
      qaScan svc q rel best log = (.ok v, log2) →
      (∀ c ∈ log, c.succeeded = true) → ∀ c ∈ log2, c.succeeded = true := by
  intro rel
  induction rel with
  | nil =>
    intro best log v log2 h hall
    injection h with h1 h2
    subst h2
    exact hall
  | cons c rest ih =>
    intro best log v log2 h hall
    simp only [qaScan] at h
    rcases hq : svc.qa q (strTake c.chunk.text 1000) with e | r <;> rw [hq] at h
    · injection h with h1 h2
      cases h1
    · dsimp only at h
      refine ih _ _ _ _ h ?_
      intro d hd
      rcases List.mem_append.mp hd with hd1 | hd1
      · exact hall d hd1
      · rcases List.mem_singleton.mp hd1 with rfl
        rfl

/-- Any `ok` outcome of the query body is the no-relevant-info degradation,
or came from a run in which every logged service call succeeded. -/
theorem queryBody_ok_cases (svc : Services) (st : EngineState) (q : String) (k : Nat)
    (v : String × Nat) (log : List SvcCall)
    (h : queryBody svc st q k = (.ok v, log)) :
    (v.1 = noInfoMsg ∧ v.2 = 0) ∨ (∀ c ∈ log, c.succeeded = true) := by
  unfold queryBody at h
  by_cases h1 : st.document_chunks = [] ∨ st.chunk_embeddings = none
  · rw [if_pos h1] at h
    injection h with hv hl
    subst hl
    right
    intro c hc
    cases hc
  · rw [if_neg h1] at h
    by_cases h2 : summaryTrigger q = true
    · rw [h2, if_pos rfl] at h
      dsimp only at h
      rcases hs : svc.summarize
          (strTake (String.intercalate " " (st.document_chunks.map Chunk.text)) 3000)
          180 60 false with e | s <;> rw [hs] at h
      · injection h with h1 h2
        cases h1
      · injection h with hv hl
        subst hl
        right
        intro c hc
        rcases List.mem_singleton.mp hc with rfl
        rfl
    · rw [Bool.not_eq_true] at h2
      rw [h2, if_neg (by simp)] at h
      dsimp only at h
      by_cases h3 : (find_relevant_chunks svc st q k).1 = []
      · rw [if_pos h3] at h
        injection h with hv hl
        injection hv with hv2
        subst hv2
        exact Or.inl ⟨rfl, rfl⟩
      · rw [if_neg h3] at h
        rcases hqa : qaScan svc q (find_relevant_chunks svc st q k).1 ("", -1)
            (find_relevant_chunks svc st q k).2 with ⟨exc, log2⟩
        rw [hqa] at h
        have hbase : ∀ c ∈ (find_relevant_chunks svc st q k).2, SvcCall.succeeded c = true := by
          rcases find_log_cases svc st q k with hl | ⟨hl, hnil⟩
          · rw [hl]
            intro c hc
            rcases List.mem_singleton.mp hc with rfl
            rfl
          · exact absurd hnil h3
        cases exc with
        | error e =>
          dsimp only at h
          injection h with h1 h2
          cases h1
        | ok best =>
          dsimp only at h
          right
          split at h <;>
          · injection h with hv hl
            subst hl
            exact qaScan_ok_log svc q _ _ _ _ _ hqa hbase

/-- **C8.** With a document loaded, if any embedding, summarization, or QA
service call made during `query` fails (its log entry records failure), the
call does not propagate an exception: `query` returns normally with
`passagesUsed = 0` and a textual response — the top-level error message for
summarization/QA failures, or (because `_find_relevant_chunks` absorbs its
own failures into an empty result) the no-relevant-information message for a
failing query-time embedding call. -/
theorem c8_failures_absorbed (svc : Services) (st : EngineState) (q : String)
    (_hdoc : ¬(st.document_chunks = [] ∨ st.chunk_embeddings = none))
    (hfail : ∃ c ∈ (query svc st q 5).2.2, c.succeeded = false) :
    (query svc st q 5).1.2 = 0 ∧
    ((∃ e, (query svc st q 5).1.1 = errMsg e) ∨ (query svc st q 5).1.1 = noInfoMsg) := by
  unfold query at hfail ⊢
  rcases hb : queryBody svc st q 5 with ⟨r, log⟩
  rw [hb] at hfail
  cases r with
  | error e => exact ⟨rfl, Or.inl ⟨e, rfl⟩⟩
  | ok v =>
    dsimp only at hfail ⊢
    rcases queryBody_ok_cases svc st q 5 v log hb with ⟨hm, hz⟩ | hall
    · exact ⟨hz, Or.inr hm⟩
    · obtain ⟨c, hc, hf⟩ := hfail
      rw [hall c hc] at hf
      cases hf

/-- A service assignment whose QA pipeline always raises. -/
def qaFailSvc : Services := { okSvc with qa := fun _ _ => .error "boom" }

theorem query_qaFail_eval : query qaFailSvc cSt "alpha" 5 =
    ((errMsg "boom", 0), cSt,
     [SvcCall.encode ["alpha"] true, SvcCall.qa "alpha" "alpha beta" false]) := by
  unfold query queryBody
  rw [if_neg (by decide)]
  rw [show summaryTrigger "alpha" = false from by decide]
  rw [if_neg (by simp)]
  dsimp only
  rw [frc_eval qaFailSvc rfl rfl]
  dsimp only
  rw [if_neg (List.cons_ne_nil _ _)]
  simp only [qaScan]
  rw [show qaFailSvc.qa "alpha" (strTake sc0.chunk.text 1000) = .error "boom" from rfl]
  rfl

/-- Witness for C8: a failing QA call yields passagesUsed = 0. -/
theorem c8_failures_absorbed_witness : (query qaFailSvc cSt "alpha" 5).1.2 = 0 :=
  (c8_failures_absorbed qaFailSvc cSt "alpha" (by decide)
    ⟨SvcCall.qa "alpha" "alpha beta" false, by rw [query_qaFail_eval]; simp, rfl⟩).1
